import Mathlib

/-!
# Verification of the BlockProject3D debug.tracing core

A shallow embedding of the tracing/profiling subsystem of
`BlockProject3D/debug.tracing`, together with theorems settling claims
about its specification.

Conventions:
* Machine integers (`u32`, `u64`, `i64`, `u16`) are modelled as `Nat`/`Int`
  with explicit `% 2^w` where wraparound matters.
* `std::time::Instant`/`Duration` are modelled as `Nat` (nanoseconds).
* Hash maps (`HashMap`, `DashMap`) are modelled as functions
  `Nat → Option α`; thread-local `Vec`-based stacks as `List` (push at the
  end, so the top of the stack is the last element).
* A Rust `.unwrap()` that can fail is modelled by an `Option` result where
  `none` marks the panic.
-/

namespace DebugTracing

/-! ## Map helpers (model of `HashMap`/`DashMap` used throughout) -/

/-- Insert or overwrite key `k` in a map. -/
def putKey (m : Nat → Option α) (k : Nat) (v : α) : Nat → Option α :=
  fun x => if x = k then some v else m x

/-- Remove key `k` from a map. -/
def eraseKey (m : Nat → Option α) (k : Nat) : Nat → Option α :=
  fun x => if x = k then none else m x

/-- The empty map. -/
def emptyMap : Nat → Option α := fun _ => none

@[simp] theorem putKey_same (m : Nat → Option α) (k : Nat) (v : α) :
    putKey m k v k = some v := by simp [putKey]

@[simp] theorem eraseKey_same (m : Nat → Option α) (k : Nat) :
    eraseKey m k k = none := by simp [eraseKey]

theorem putKey_other (m : Nat → Option α) (k x : Nat) (v : α) (h : x ≠ k) :
    putKey m k v x = m x := by simp [putKey, h]

theorem eraseKey_other (m : Nat → Option α) (k x : Nat) (h : x ≠ k) :
    eraseKey m k x = m x := by simp [eraseKey, h]

/-! ## Little-endian byte strings (model of `byteorder`/`bytesutil` I/O) -/

/-- `k` little-endian bytes of `n` (`LittleEndian::write_uXX`). -/
def leBytes (n : Nat) : Nat → List Nat
  | 0 => []
  | k + 1 => (n % 256) :: leBytes (n / 256) k

/-- Value of a little-endian byte string (`LittleEndian::read_uXX`). -/
def leVal : List Nat → Nat
  | [] => 0
  | b :: rest => b + 256 * leVal rest

@[simp] theorem leBytes_length (n k : Nat) : (leBytes n k).length = k := by
  induction k generalizing n with
  | zero => rfl
  | succ k ih => simp [leBytes, ih]

theorem leVal_leBytes (k : Nat) (n : Nat) (h : n < 256 ^ k) :
    leVal (leBytes n k) = n := by
  induction k generalizing n with
  | zero =>
      simp only [pow_zero, Nat.lt_one_iff] at h
      simp [leBytes, leVal, h]
  | succ k ih =>
      have hdiv : n / 256 < 256 ^ k := by
        rw [Nat.div_lt_iff_lt_mul (by norm_num)]
        calc n < 256 ^ (k + 1) := h
        _ = 256 ^ k * 256 := by ring
      simp only [leBytes, leVal, ih _ hdiv]
      omega

/-! ## Span identity (`src/util.rs`)

`SpanId` packs a call-site `node_id : NonZeroU32` and an
`instance_id : u32` into one nonzero 64-bit token:
`(id as u64) << 32 | instance as u64`. -/

def U32_LIMIT : Nat := 4294967296

/-- `impl From<(NonZeroU32, u32)> for SpanId` (src/util.rs:75-81). -/
def spanIdFromPair (node inst : Nat) : Nat :=
  (node <<< 32) ||| inst

/-- `SpanId::get_id_instance` (src/util.rs:92-95): `((v >> 32) as u32, v as u32)`. -/
def spanIdGetIdInstance (v : Nat) : Nat × Nat :=
  ((v >>> 32) % U32_LIMIT, v % U32_LIMIT)

/-- `SpanId::get_id` (src/util.rs:97-100). -/
def spanIdGetId (v : Nat) : Nat := (v >>> 32) % U32_LIMIT

/-- `SpanId::get_instance` (src/util.rs:102-104): `v as u32`. -/
def spanIdGetInstance (v : Nat) : Nat := v % U32_LIMIT

theorem spanIdFromPair_eq (node inst : Nat) (hi : inst < U32_LIMIT) :
    spanIdFromPair node inst = node * U32_LIMIT + inst := by
  have h2 : (2:Nat) ^ 32 = U32_LIMIT := by norm_num [U32_LIMIT]
  have hi2 : inst < 2 ^ 32 := by rw [h2]; exact hi
  rw [spanIdFromPair, Nat.shiftLeft_eq, Nat.mul_comm, ← Nat.mul_add_lt_is_or hi2 node]
  rw [h2, Nat.mul_comm]

/-- C10 helper: unpacking inverts packing. -/
theorem spanIdGetIdInstance_fromPair (node inst : Nat)
    (hn : node < U32_LIMIT) (hi : inst < U32_LIMIT) :
    spanIdGetIdInstance (spanIdFromPair node inst) = (node, inst) := by
  rw [spanIdFromPair_eq node inst hi]
  have h2 : (2:Nat) ^ 32 = U32_LIMIT := by norm_num [U32_LIMIT]
  unfold spanIdGetIdInstance
  rw [Nat.shiftRight_eq_div_pow, h2]
  unfold U32_LIMIT at *
  rw [Prod.mk.injEq]
  constructor <;> omega

/-- **C10.** For every pair `(node_id : NonZeroU32, instance_id : u32)`,
packing it into a `SpanId` yields a nonzero 64-bit token,
`get_id_instance` on that token returns exactly the original pair, and the
packing is injective on such pairs. -/
theorem spanId_pack_roundtrip (node inst : Nat)
    (hn0 : 1 ≤ node) (hn : node < U32_LIMIT) (hi : inst < U32_LIMIT) :
    spanIdFromPair node inst ≠ 0 ∧
    spanIdGetIdInstance (spanIdFromPair node inst) = (node, inst) ∧
    ∀ node2 inst2, node2 < U32_LIMIT → inst2 < U32_LIMIT →
      spanIdFromPair node inst = spanIdFromPair node2 inst2 →
      node = node2 ∧ inst = inst2 := by
  refine ⟨?_, spanIdGetIdInstance_fromPair node inst hn hi, ?_⟩
  · rw [spanIdFromPair_eq node inst hi]
    have : 0 < U32_LIMIT := by norm_num [U32_LIMIT]
    positivity
  · intro node2 inst2 hn2 hi2 heq
    have h1 := spanIdGetIdInstance_fromPair node inst hn hi
    have h2 := spanIdGetIdInstance_fromPair node2 inst2 hn2 hi2
    rw [heq] at h1
    rw [h1] at h2
    exact ⟨(Prod.mk.injEq _ _ _ _).mp h2 |>.1, (Prod.mk.injEq _ _ _ _).mp h2 |>.2⟩

/-- Witness for C10 at `(node, instance) = (1, 0)` and a collision check
against `(2, 5)`. -/
theorem spanId_pack_roundtrip_witness :
    spanIdFromPair 1 0 ≠ 0 ∧
    spanIdGetIdInstance (spanIdFromPair 1 0) = (1, 0) ∧
    ∀ node2 inst2, node2 < U32_LIMIT → inst2 < U32_LIMIT →
      spanIdFromPair 1 0 = spanIdFromPair node2 inst2 →
      1 = node2 ∧ 0 = inst2 :=
  spanId_pack_roundtrip 1 0 (by decide) (by norm_num [U32_LIMIT]) (by norm_num [U32_LIMIT])

/-! ## Protocol Hello and version matching
(`src/src/profiler/network_types/version.rs`)

A `Hello` is 40 bytes: an 8-byte ASCII signature, an 8-byte little-endian
major version, and a 24-byte NUL-padded pre-release tag (absent when its
first byte is 0). -/

/-- The 8 bytes of `b"BP3DPROF"`. -/
def HELLO_SIGNATURE : List Nat := [66, 80, 51, 68, 80, 82, 79, 70]

structure HelloVersion where
  major : Nat
  preRelease : Option (List Nat)
deriving Repr, DecidableEq

structure Hello where
  signature : List Nat
  version : HelloVersion
deriving Repr, DecidableEq

inductive MatchResult
  | SignatureMismatch
  | VersionMismatch
  | Ok
deriving Repr, DecidableEq

/-- `Hello::new` (version.rs:68-76). -/
def Hello.new (major : Nat) (preRelease : Option (List Nat)) : Hello :=
  { signature := HELLO_SIGNATURE, version := { major := major, preRelease := preRelease } }

/-- `Hello::from_bytes` (version.rs:78-101): signature is bytes 0..8, major
is little-endian bytes 8..16, pre-release is bytes 16..40, treated as
absent when its first byte is 0. -/
def Hello.fromBytes (block : List Nat) : Hello :=
  let signature := block.take 8
  let preRelease := (block.drop 16).take 24
  let major := leVal ((block.drop 8).take 8)
  if preRelease.headI = 0 then
    { signature := signature, version := { major := major, preRelease := none } }
  else
    { signature := signature, version := { major := major, preRelease := some preRelease } }

/-- `Hello::to_bytes` (version.rs:118-126). -/
def Hello.toBytes (h : Hello) : List Nat :=
  h.signature ++ leBytes h.version.major 8 ++
    (match h.version.preRelease with
     | some pre => pre
     | none => List.replicate 24 0)

/-- `Hello::matches` (version.rs:103-116). Signature is compared first;
then, when both pre-release tags are present the tags alone are compared,
when both are absent the majors are compared, and a mixed pair mismatches. -/
def Hello.matches (self other : Hello) : MatchResult :=
  if self.signature ≠ other.signature then
    MatchResult.SignatureMismatch
  else
    let val : Bool :=
      match self.version.preRelease, other.version.preRelease with
      | some a, some b => a = b
      | none, none => self.version.major = other.version.major
      | _, _ => false
    match val with
    | true => MatchResult.Ok
    | false => MatchResult.VersionMismatch

/-- The decision taken by `handle_hello` (src/src/profiler/core.rs:62-77)
after the socket I/O: the server compares its own `Hello` against the
client's 40-byte block and fails the session on any mismatch. -/
def handleHelloCheck (server : Hello) (clientBlock : List Nat) : Except String Unit :=
  match server.matches (Hello.fromBytes clientBlock) with
  | MatchResult.SignatureMismatch => Except.error "protocol signature mismatch"
  | MatchResult.VersionMismatch => Except.error "version signature mismatch"
  | MatchResult.Ok => Except.ok ()

/-- A concrete 24-byte pre-release tag, `"rc"` NUL-padded. -/
def preRC : List Nat := 114 :: 99 :: List.replicate 22 0

/-- **C1 counterexample.** A client whose signature and 24-byte pre-release
tag both match the server's but whose major version differs (2 vs 3) is
accepted: `Hello::matches` returns `Ok` and `handle_hello` succeeds, not a
version mismatch as the claim states. -/
theorem hello_versionMatch_counterexample :
    Hello.matches (Hello.new 3 (some preRC))
        (Hello.fromBytes ((Hello.new 2 (some preRC)).toBytes)) = MatchResult.Ok ∧
    handleHelloCheck (Hello.new 3 (some preRC))
        ((Hello.new 2 (some preRC)).toBytes) = Except.ok () ∧
    (Hello.new 3 (some preRC)).version.major ≠
        (Hello.fromBytes ((Hello.new 2 (some preRC)).toBytes)).version.major ∧
    (Hello.new 3 (some preRC)).signature =
        (Hello.fromBytes ((Hello.new 2 (some preRC)).toBytes)).signature ∧
    (Hello.new 3 (some preRC)).version.preRelease =
        (Hello.fromBytes ((Hello.new 2 (some preRC)).toBytes)).version.preRelease := by
  refine ⟨by decide, by rfl, by decide, by decide, by decide⟩

/-- **C1 (amended).** After reading the client's 40-byte Hello the server
proceeds if and only if the signatures are equal and the versions are
compatible, where compatibility compares the 24-byte pre-release tags alone
when both are present (the major version is ignored), compares the majors
when both tags are absent, and fails on a mixed pair. In particular, when
neither side has a pre-release tag, a differing major version yields a
version mismatch and `handle_hello` returns an error. -/
theorem hello_versionMatch_spec (server client : Hello) :
    (server.matches client = MatchResult.Ok ↔
      server.signature = client.signature ∧
      ((∃ p, server.version.preRelease = some p ∧ client.version.preRelease = some p) ∨
       (server.version.preRelease = none ∧ client.version.preRelease = none ∧
        server.version.major = client.version.major))) ∧
    (∀ block, handleHelloCheck server block = Except.ok () ↔
      server.matches (Hello.fromBytes block) = MatchResult.Ok) ∧
    (server.version.preRelease = none → client.version.preRelease = none →
      server.version.major ≠ client.version.major →
      server.matches client ≠ MatchResult.Ok ∧
      (server.signature = client.signature →
        server.matches client = MatchResult.VersionMismatch)) := by
  refine ⟨?_, ?_, ?_⟩
  · unfold Hello.matches
    by_cases hs : server.signature = client.signature
    · cases hp : server.version.preRelease with
      | none =>
          cases hq : client.version.preRelease with
          | none =>
              by_cases hm : server.version.major = client.version.major <;>
                simp [hs, hp, hq, hm]
          | some b => simp [hs, hp, hq]
      | some a =>
          cases hq : client.version.preRelease with
          | none => simp [hs, hp, hq]
          | some b =>
              by_cases hab : a = b <;> simp [hs, hp, hq, hab, eq_comm]
    · simp [hs]
  · intro block
    unfold handleHelloCheck
    cases h : server.matches (Hello.fromBytes block) <;> simp [h]
  · intro h1 h2 h3
    constructor
    · unfold Hello.matches
      simp only [h1, h2, h3]
      split <;> simp
    · intro hsig
      unfold Hello.matches
      simp [h1, h2, h3, hsig]

/-- Witness for C1 (amended) at server Hello `(major 3, no pre-release)`
and client Hello `(major 2, no pre-release)`: the version mismatch case. -/
theorem hello_versionMatch_spec_witness :
    Hello.matches (Hello.new 3 none) (Hello.new 2 none) = MatchResult.VersionMismatch :=
  ((hello_versionMatch_spec (Hello.new 3 none) (Hello.new 2 none)).2.2
    rfl rfl (by decide)).2 rfl

/-! ## Thread-local span stack (`src/core.rs:127-170`)

`SPAN_STACK` is a per-thread `Vec<SpanLocal>`; `push` appends at the end,
so the top of the stack is the last element. -/

structure SpanLocal where
  id : Nat
  last_time : Nat
deriving Repr, DecidableEq

/-- `SpanLocal::new` + `push_span` (src/core.rs:145-151). -/
def pushSpan (stack : List SpanLocal) (span now : Nat) : List SpanLocal :=
  stack ++ [{ id := span, last_time := now }]

/-- `pop_span` (src/core.rs:153-162): `Vec::iter().position` finds the
first matching index counting from index 0 (the bottom of the stack),
`Vec::remove` removes it, and the elapsed time since that frame's entry
is returned. Returns the new stack alongside the optional duration. -/
def popSpan (stack : List SpanLocal) (span now : Nat) : Option Nat × List SpanLocal :=
  match stack.findIdx? (fun v => v.id == span) with
  | none => (none, stack)
  | some i =>
    match stack[i]? with
    | none => (none, stack)   -- unreachable: findIdx? indices are in range
    | some v => (some (now - v.last_time), stack.eraseIdx i)

/-- `current_span` (src/core.rs:164-170): the id at the top of the stack. -/
def currentSpan (stack : List SpanLocal) : Option Nat :=
  stack.getLast?.map (fun v => v.id)

/-- The behavior the claim describes (stated from the spec's words, for
comparison only): locate and remove the TOPMOST frame with the id, i.e.
search from the end of the `Vec`. -/
def popSpanTopmost (stack : List SpanLocal) (span now : Nat) : Option Nat × List SpanLocal :=
  match stack.reverse.findIdx? (fun v => v.id == span) with
  | none => (none, stack)
  | some i =>
    match stack.reverse[i]? with
    | none => (none, stack)
    | some v => (some (now - v.last_time), (stack.reverse.eraseIdx i).reverse)

/-- Helper: popping an id with no matching frame is a no-op. -/
theorem popSpan_miss (s : List SpanLocal) (span now : Nat)
    (hs : ∀ w ∈ s, w.id ≠ span) : popSpan s span now = (none, s) := by
  have hfind : s.findIdx? (fun w => w.id == span) = none := by
    rw [List.findIdx?_eq_none_iff]
    intro x hx
    simp [hs x hx]
  rw [popSpan, hfind]

/-- **C2 counterexample.** With two frames of the same id on the stack
(entry times 0 and 5, the latter on top) and `now = 10`, `pop_span`
removes the bottom-most frame and returns the elapsed time of the OLDEST
entry (10), not the topmost one (5) as the claim states. -/
theorem popSpan_counterexample :
    popSpan [{ id := 1, last_time := 0 }, { id := 1, last_time := 5 }] 1 10 =
      (some 10, [{ id := 1, last_time := 5 }]) ∧
    popSpanTopmost [{ id := 1, last_time := 0 }, { id := 1, last_time := 5 }] 1 10 =
      (some 5, [{ id := 1, last_time := 0 }]) ∧
    popSpan [{ id := 1, last_time := 0 }, { id := 1, last_time := 5 }] 1 10 ≠
      popSpanTopmost [{ id := 1, last_time := 0 }, { id := 1, last_time := 5 }] 1 10 := by
  refine ⟨by decide, by decide, by decide⟩

/-- **C2 (amended).** `pop_span(id)` removes the BOTTOM-MOST (earliest
pushed) frame whose id matches and returns the elapsed time since that
frame's entry timestamp; when no frame matches it returns none and leaves
the stack unchanged, without panicking. -/
theorem popSpan_spec (s1 s2 : List SpanLocal) (v : SpanLocal) (span now : Nat)
    (hv : v.id = span) (h1 : ∀ w ∈ s1, w.id ≠ span) :
    popSpan (s1 ++ v :: s2) span now = (some (now - v.last_time), s1 ++ s2) ∧
    ∀ s : List SpanLocal, (∀ w ∈ s, w.id ≠ span) → popSpan s span now = (none, s) := by
  constructor
  · have hfind : (s1 ++ v :: s2).findIdx? (fun w => w.id == span) = some s1.length := by
      rw [List.findIdx?_append]
      have hs1 : s1.findIdx? (fun w => w.id == span) = none := by
        rw [List.findIdx?_eq_none_iff]
        intro x hx
        simp [h1 x hx]
      rw [hs1, Option.none_or]
      have : (v :: s2).findIdx? (fun w => w.id == span) = some 0 := by
        simp [List.findIdx?_cons, hv]
      rw [this]
      simp
    have hget : (s1 ++ v :: s2)[s1.length]? = some v := by
      rw [List.getElem?_append_right (Nat.le_refl _)]
      simp
    have herase : (s1 ++ v :: s2).eraseIdx s1.length = s1 ++ s2 := by
      rw [List.eraseIdx_append_of_length_le (Nat.le_refl _)]
      simp
    rw [popSpan, hfind]
    simp only [hget, herase]
  · exact fun s hs => popSpan_miss s span now hs

/-- Witness for C2 (amended): popping id 2 from the stack
`[(2, 3), (7, 4)]` at `now = 10` yields elapsed 7 and leaves `[(7, 4)]`;
popping from a stack without the id is a no-op. -/
theorem popSpan_spec_witness :
    popSpan [{ id := 2, last_time := 3 }, { id := 7, last_time := 4 }] 2 10 =
      (some 7, [{ id := 7, last_time := 4 }]) ∧
    ∀ s : List SpanLocal, (∀ w ∈ s, w.id ≠ 2) → popSpan s 2 10 = (none, s) := by
  have h := popSpan_spec [] [{ id := 7, last_time := 4 }] { id := 2, last_time := 3 } 2 10
    rfl (by intro w hw; cases hw)
  exact ⟨h.1, h.2⟩

/-! ## Call-site instance allocation (`src/core.rs:73-111`)

One `SpanHead` per static call-site: the next fresh instance id, the
count of live instances, and a pool of freed instance ids (`VecDeque`,
pushed and popped at the back). -/

structure SpanHead where
  span_id : Nat
  next_instance_id : Nat
  instance_count : Nat
  freed_instances : List Nat
deriving Repr, DecidableEq

/-- `SpanHead::new` (src/core.rs:81-88). -/
def SpanHead.new (span_id : Nat) : SpanHead :=
  { span_id := span_id, next_instance_id := 0, instance_count := 0, freed_instances := [] }

/-- `SpanHead::free_instance` (src/core.rs:90-98): decrement the live
count; on reaching zero wipe the pool and reset `next_instance_id`,
otherwise push the id onto the back of the pool. -/
def SpanHead.free_instance (h : SpanHead) (id : Nat) : SpanHead :=
  if h.instance_count - 1 = 0 then
    { h with instance_count := h.instance_count - 1, freed_instances := [],
             next_instance_id := 0 }
  else
    { h with instance_count := h.instance_count - 1,
             freed_instances := h.freed_instances ++ [id] }

/-- `SpanHead::new_instance` (src/core.rs:100-110): increment the live
count; pop an id from the back of the freed pool, falling back to
`next_instance_id++`. Returns the updated head and the allocated id. -/
def SpanHead.new_instance (h : SpanHead) : SpanHead × Nat :=
  match h.freed_instances.getLast? with
  | none =>
      ({ h with instance_count := h.instance_count + 1,
                next_instance_id := h.next_instance_id + 1 }, h.next_instance_id)
  | some v =>
      ({ h with instance_count := h.instance_count + 1,
                freed_instances := h.freed_instances.dropLast }, v)

/-- The states reachable by interleaving `new_instance` and
`free_instance` from a fresh `SpanHead`, together with the list of
currently live instance ids. `free_instance` is only ever invoked (from
`try_close`) with the id of a live instance. -/
inductive SpanHeadReach : SpanHead → List Nat → Prop
  | init (span_id : Nat) : SpanHeadReach (SpanHead.new span_id) []
  | alloc {h : SpanHead} {live : List Nat} :
      SpanHeadReach h live →
      SpanHeadReach (h.new_instance).1 ((h.new_instance).2 :: live)
  | free {h : SpanHead} {live : List Nat} {id : Nat} :
      SpanHeadReach h live → id ∈ live →
      SpanHeadReach (h.free_instance id) (live.erase id)

/-- Well-formedness of a `SpanHead` with respect to its live instances. -/
def SpanHead.WF (h : SpanHead) (live : List Nat) : Prop :=
  live.Nodup ∧
  h.instance_count = live.length ∧
  h.freed_instances.Nodup ∧
  (∀ x ∈ h.freed_instances, x ∉ live) ∧
  (∀ x, x ∈ live ∨ x ∈ h.freed_instances → x < h.next_instance_id) ∧
  (live = [] → h.freed_instances = [] ∧ h.next_instance_id = 0)

theorem spanHeadReach_wf {h : SpanHead} {live : List Nat}
    (hr : SpanHeadReach h live) : h.WF live := by
  induction hr with
  | init span_id =>
      refine ⟨List.nodup_nil, rfl, List.nodup_nil, ?_, ?_, fun _ => ⟨rfl, rfl⟩⟩
      · intro x hx; cases hx
      · intro x hx; rcases hx with hx | hx <;> cases hx
  | @alloc h live hr ih =>
      obtain ⟨hnd, hcnt, hfnd, hdisj, hbound, _⟩ := ih
      rcases hg : h.freed_instances.getLast? with _ | v
      · have hfe : h.freed_instances = [] := List.getLast?_eq_none_iff.mp hg
        have hni : h.new_instance =
            ({ h with instance_count := h.instance_count + 1,
                      next_instance_id := h.next_instance_id + 1 },
             h.next_instance_id) := by
          rw [SpanHead.new_instance, hg]
        rw [hni]
        dsimp only
        refine ⟨?_, ?_, ?_, ?_, ?_, ?_⟩
        · exact List.nodup_cons.mpr
            ⟨fun hmem => absurd (hbound _ (Or.inl hmem)) (lt_irrefl _), hnd⟩
        · simp [hcnt]
        · exact hfnd
        · intro x hx; rw [hfe] at hx; cases hx
        · intro x hx
          simp only [List.mem_cons, hfe] at hx
          rcases hx with (rfl | hx) | hx
          · exact Nat.lt_succ_self _
          · exact Nat.lt_succ_of_lt (hbound _ (Or.inl hx))
          · cases hx
        · intro hnil; cases hnil
      · obtain ⟨ys, hys⟩ := List.getLast?_eq_some_iff.mp hg
        have hni : h.new_instance =
            ({ h with instance_count := h.instance_count + 1,
                      freed_instances := h.freed_instances.dropLast }, v) := by
          rw [SpanHead.new_instance, hg]
        rw [hni]
        dsimp only
        have hvmem : v ∈ h.freed_instances := List.mem_of_getLast?_eq_some hg
        have hdrop : h.freed_instances.dropLast = ys := by
          rw [hys]; exact List.dropLast_concat
        have hysnd : ys.Nodup ∧ v ∉ ys := by
          rw [hys] at hfnd
          refine ⟨hfnd.of_append_left, fun hv => ?_⟩
          exact (List.disjoint_of_nodup_append hfnd) hv (List.mem_singleton_self v)
        refine ⟨?_, ?_, ?_, ?_, ?_, ?_⟩
        · exact List.nodup_cons.mpr ⟨hdisj v hvmem, hnd⟩
        · simp [hcnt]
        · rw [hdrop]; exact hysnd.1
        · intro x hx
          rw [hdrop] at hx
          have hxf : x ∈ h.freed_instances := by
            rw [hys]; exact List.mem_append_left _ hx
          intro hmem
          rcases List.mem_cons.mp hmem with rfl | hmem
          · exact hysnd.2 hx
          · exact hdisj x hxf hmem
        · intro x hx
          simp only [List.mem_cons, hdrop] at hx
          rcases hx with (rfl | hx) | hx
          · exact hbound _ (Or.inr hvmem)
          · exact hbound _ (Or.inl hx)
          · refine hbound _ (Or.inr ?_)
            rw [hys]; exact List.mem_append_left _ hx
        · intro hnil; cases hnil
  | @free h live id hr hmem ih =>
      obtain ⟨hnd, hcnt, hfnd, hdisj, hbound, _⟩ := ih
      have hlen : (live.erase id).length = live.length - 1 :=
        List.length_erase_of_mem hmem
      have hlive1 : 1 ≤ live.length := List.length_pos.mpr (List.ne_nil_of_mem hmem)
      by_cases hz : h.instance_count - 1 = 0
      · rw [SpanHead.free_instance, if_pos hz]
        have hlnil : live.erase id = [] := by
          have h1 : (live.erase id).length = 0 := by omega
          exact List.length_eq_zero.mp h1
        rw [hlnil]
        refine ⟨List.nodup_nil, ?_, List.nodup_nil, ?_, ?_, fun _ => ⟨rfl, rfl⟩⟩
        · simpa using hz
        · intro x hx; cases hx
        · intro x hx
          rcases hx with hx | hx <;> cases hx
      · rw [SpanHead.free_instance, if_neg hz]
        have hidnf : id ∉ h.freed_instances := fun hc => hdisj id hc hmem
        refine ⟨hnd.erase id, ?_, ?_, ?_, ?_, ?_⟩
        · show h.instance_count - 1 = (live.erase id).length
          omega
        · simp [List.nodup_append, hfnd, hidnf]
        · intro x hx hmem2
          rcases List.mem_append.mp hx with hx | hx
          · exact hdisj x hx (List.mem_of_mem_erase hmem2)
          · rcases List.mem_singleton.mp hx with rfl
            exact (hnd.not_mem_erase) hmem2
        · intro x hx
          rcases hx with hx | hx
          · exact hbound _ (Or.inl (List.mem_of_mem_erase hx))
          · rcases List.mem_append.mp hx with hx | hx
            · exact hbound _ (Or.inr hx)
            · rcases List.mem_singleton.mp hx with rfl
              exact hbound _ (Or.inl hmem)
        · intro hnil
          exfalso
          rw [hnil] at hlen
          simp at hlen
          omega

/-- **C7.** For every call-site and every interleaving of `new_instance`
and `free_instance` calls (with frees only of live ids): every allocation
yields an instance id distinct from all concurrently live instance ids of
that call-site (which are pairwise distinct), and when the live count has
returned to zero the freed pool is empty and `next_instance_id` is 0, so
the next allocation after full quiescence yields instance id 0. -/
theorem spanHead_instance_invariant (h : SpanHead) (live : List Nat)
    (hr : SpanHeadReach h live) :
    ((h.new_instance).2 ∉ live) ∧
    live.Nodup ∧
    (live = [] → h.freed_instances = [] ∧ h.next_instance_id = 0 ∧
      (h.new_instance).2 = 0) := by
  obtain ⟨hnd, hcnt, hfnd, hdisj, hbound, hq⟩ := spanHeadReach_wf hr
  refine ⟨?_, hnd, ?_⟩
  · rcases hg : h.freed_instances.getLast? with _ | v
    · rw [SpanHead.new_instance, hg]
      intro hmem
      exact absurd (hbound _ (Or.inl hmem)) (lt_irrefl _)
    · rw [SpanHead.new_instance, hg]
      exact hdisj v (List.mem_of_getLast?_eq_some hg)
  · intro hnil
    obtain ⟨hfe, hn0⟩ := hq hnil
    refine ⟨hfe, hn0, ?_⟩
    have hg : h.freed_instances.getLast? = none := by rw [hfe]; rfl
    rw [SpanHead.new_instance, hg]
    exact hn0

/-- Witness for C7: the state reached by alloc-then-free from a fresh
call-site head is quiescent, and the next allocation yields instance 0. -/
theorem spanHead_instance_invariant_witness :
    ((SpanHead.mk 1 0 0 []).new_instance.2 ∉ ([] : List Nat)) ∧
    ([] : List Nat).Nodup ∧
    (([] : List Nat) = [] → (SpanHead.mk 1 0 0 []).freed_instances = [] ∧
      (SpanHead.mk 1 0 0 []).next_instance_id = 0 ∧
      (SpanHead.mk 1 0 0 []).new_instance.2 = 0) :=
  spanHead_instance_invariant _ _
    (@SpanHeadReach.free ((SpanHead.new 1).new_instance.1)
      [(SpanHead.new 1).new_instance.2] 0
      (SpanHeadReach.alloc (SpanHeadReach.init 1)) (by decide))

/-! ## Subscriber core maps and `try_close` (`src/core.rs:68-125, 277-297`)

The core keeps two maps behind one mutex: `spans_by_meta` (call-site key,
the address hash of the static metadata, mapped to its `SpanHead`) and
`spans_by_id` (live `SpanId` mapped to its reference-counted record). -/

structure SpanRecordData where
  ref_count : Nat
  meta : Nat
deriving Repr, DecidableEq

structure InnerState where
  spans_by_meta : Nat → Option SpanHead
  spans_by_id : Nat → Option SpanRecordData

/-- `Subscriber::try_close` for `BaseTracer` (src/core.rs:277-297): look
up the record, decrement `ref_count`; at zero free the instance in the
call-site head (`.unwrap()` of the head lookup is modelled by `none` =
panic), remove the record and report destruction (`span_destroy` is
invoked exactly when `true` is returned). -/
def tryClose (st : InnerState) (span : Nat) : Option (InnerState × Bool) :=
  match st.spans_by_id span with
  | none => some (st, false)
  | some data =>
    if data.ref_count - 1 = 0 then
      match st.spans_by_meta data.meta with
      | none => none
      | some head =>
        some ({ spans_by_meta :=
                  putKey st.spans_by_meta data.meta
                    (head.free_instance (spanIdGetInstance span)),
                spans_by_id := eraseKey st.spans_by_id span }, true)
    else
      some ({ st with
                spans_by_id :=
                  putKey st.spans_by_id span
                    { data with ref_count := data.ref_count - 1 } }, false)

/-- **C6.** For every live span id (a `SpanRecord` with positive
`ref_count` whose call-site head exists), `try_close` decrements the
ref-count; exactly when it reaches zero the record is removed, the
instance id is returned to the call-site head via `free_instance` (which
wipes the pool and resets `next_instance_id` when the live count reaches
zero), destruction is reported (`true`); otherwise (count still positive,
or no record at all) it returns `false`, destroys nothing and leaves the
maps unchanged apart from the decremented count. -/
theorem tryClose_spec (st : InnerState) (span : Nat) (data : SpanRecordData)
    (head : SpanHead) (hdata : st.spans_by_id span = some data)
    (hrc : 1 ≤ data.ref_count) (hic : 1 ≤ head.instance_count)
    (hhead : st.spans_by_meta data.meta = some head) :
    (data.ref_count = 1 →
      tryClose st span =
        some ({ spans_by_meta :=
                  putKey st.spans_by_meta data.meta
                    (head.free_instance (spanIdGetInstance span)),
                spans_by_id := eraseKey st.spans_by_id span }, true) ∧
      (eraseKey st.spans_by_id span) span = none ∧
      (head.instance_count = 1 →
        head.free_instance (spanIdGetInstance span) =
          { head with instance_count := 0, freed_instances := [],
                      next_instance_id := 0 }) ∧
      (head.instance_count ≠ 1 →
        head.free_instance (spanIdGetInstance span) =
          { head with instance_count := head.instance_count - 1,
                      freed_instances :=
                        head.freed_instances ++ [spanIdGetInstance span] })) ∧
    (1 < data.ref_count →
      tryClose st span =
        some ({ st with
                  spans_by_id :=
                    putKey st.spans_by_id span
                      { data with ref_count := data.ref_count - 1 } }, false) ∧
      (putKey st.spans_by_id span
        { data with ref_count := data.ref_count - 1 }) span =
        some { data with ref_count := data.ref_count - 1 }) ∧
    ∀ st0 : InnerState, ∀ sp, st0.spans_by_id sp = none →
      tryClose st0 sp = some (st0, false) := by
  refine ⟨?_, ?_, ?_⟩
  · intro h1
    have hz : data.ref_count - 1 = 0 := by omega
    refine ⟨?_, eraseKey_same _ _, ?_, ?_⟩
    · rw [tryClose, hdata]
      simp only [hz, hhead]
      simp
    · intro hc1
      rw [SpanHead.free_instance, if_pos (by omega)]
      simp [hc1]
    · intro hc1
      rw [SpanHead.free_instance, if_neg (by omega)]
  · intro h1
    have hz : data.ref_count - 1 ≠ 0 := by omega
    refine ⟨?_, putKey_same _ _ _⟩
    rw [tryClose, hdata]
    simp only [if_neg hz]
  · intro st0 sp h0
    rw [tryClose, h0]

/-- Witness for C6: a state holding one record for span id
`2^32 + 7` (node 1, instance 7) with `ref_count = 1` and a head with one
live instance; `try_close` destroys it and quiesces the head. -/
theorem tryClose_spec_witness :
    (1 = 1 →
      tryClose
        { spans_by_meta := putKey emptyMap 40 (SpanHead.mk 1 8 1 []),
          spans_by_id := putKey emptyMap 4294967303 (SpanRecordData.mk 1 40) }
        4294967303 =
        some ({ spans_by_meta :=
                  putKey (putKey emptyMap 40 (SpanHead.mk 1 8 1 [])) 40
                    ((SpanHead.mk 1 8 1 []).free_instance
                      (spanIdGetInstance 4294967303)),
                spans_by_id :=
                  eraseKey (putKey emptyMap 4294967303 (SpanRecordData.mk 1 40))
                    4294967303 }, true) ∧
      (eraseKey (putKey emptyMap 4294967303 (SpanRecordData.mk 1 40))
        4294967303) 4294967303 = none ∧
      ((SpanHead.mk 1 8 1 []).instance_count = 1 →
        (SpanHead.mk 1 8 1 []).free_instance (spanIdGetInstance 4294967303) =
          SpanHead.mk 1 0 0 []) ∧
      ((SpanHead.mk 1 8 1 []).instance_count ≠ 1 →
        (SpanHead.mk 1 8 1 []).free_instance (spanIdGetInstance 4294967303) =
          SpanHead.mk 1 8 0 [spanIdGetInstance 4294967303])) ∧
    (1 < 1 →
      tryClose
        { spans_by_meta := putKey emptyMap 40 (SpanHead.mk 1 8 1 []),
          spans_by_id := putKey emptyMap 4294967303 (SpanRecordData.mk 1 40) }
        4294967303 =
        some ({ spans_by_meta := putKey emptyMap 40 (SpanHead.mk 1 8 1 []),
                spans_by_id :=
                  putKey (putKey emptyMap 4294967303 (SpanRecordData.mk 1 40))
                    4294967303 (SpanRecordData.mk 0 40) }, false) ∧
      (putKey (putKey emptyMap 4294967303 (SpanRecordData.mk 1 40))
        4294967303 (SpanRecordData.mk 0 40)) 4294967303 =
        some (SpanRecordData.mk 0 40)) ∧
    (∀ st0 : InnerState, ∀ sp, st0.spans_by_id sp = none →
      tryClose st0 sp = some (st0, false)) :=
  tryClose_spec
    { spans_by_meta := putKey emptyMap 40 (SpanHead.mk 1 8 1 []),
      spans_by_id := putKey emptyMap 4294967303 (SpanRecordData.mk 1 40) }
    4294967303 (SpanRecordData.mk 1 40) (SpanHead.mk 1 8 1 []) (by rfl)
    (by decide) (by decide) (by rfl)

/-! ## Sink callbacks on missing per-span state
(`src/src/profiler/core.rs`, `src/logger.rs`) -/

/-- The per-span scratch kept by the profiler sink (`SpanVisitor`): the
partially TLV-encoded `SpanLog` for the span. Field serialization is
abstracted to the byte payload it appends. -/
structure SpanVisitorMsg where
  log_id : Nat
  duration : Nat
  payload : List Nat
deriving Repr, DecidableEq

/-- `Profiler::span_exit` (src/src/profiler/core.rs:199-207):
`self.spans.get_mut(id).unwrap()` panics (modelled as `none`) when the
per-span state is missing; otherwise the duration is set on the scratch
`SpanLog` and its clone is sent on the `span` channel (returned here). -/
def profilerSpanExit (spans : Nat → Option SpanVisitorMsg) (id dur : Nat) :
    Option ((Nat → Option SpanVisitorMsg) × SpanVisitorMsg) :=
  match spans id with
  | none => none
  | some msg =>
      let msg2 := { msg with duration := dur }
      some (putKey spans id msg2, msg2)

/-- `Profiler::span_values` (src/src/profiler/core.rs:164-169):
`self.spans.get_mut(id).unwrap()` panics when the state is missing;
otherwise the values are recorded into the scratch. -/
def profilerSpanValues (spans : Nat → Option SpanVisitorMsg) (id : Nat)
    (values : List Nat) : Option (Nat → Option SpanVisitorMsg) :=
  match spans id with
  | none => none
  | some msg =>
      some (putKey spans id { msg with payload := msg.payload ++ values })

/-- The per-span state kept by the log sink (`SpanData` in src/logger.rs):
the metadata and the formatted partial message (text abstracted as
bytes). -/
structure LoggerSpanData where
  meta_name : List Nat
  recorded : List Nat
deriving Repr, DecidableEq

/-- `Logger::span_exit` (src/logger.rs:192-206):
`self.spans.get(id).unwrap()` panics when the span state is missing;
otherwise a textual record derived from the stored state and the duration
is emitted (the emitted record is abstracted to its inputs). -/
def loggerSpanExit (spans : Nat → Option LoggerSpanData) (id dur : Nat) :
    Option (List Nat × Nat) :=
  match spans id with
  | none => none
  | some data => some (data.meta_name ++ data.recorded, dur)

/-- `Logger::span_values` (src/logger.rs:157-160): the same unwrap
pattern. -/
def loggerSpanValues (spans : Nat → Option LoggerSpanData) (id : Nat)
    (values : List Nat) : Option (Nat → Option LoggerSpanData) :=
  match spans id with
  | none => none
  | some data =>
      some (putKey spans id { data with recorded := data.recorded ++ values })

/-- `Subscriber::exit` for `BaseTracer` (src/core.rs:262-267): pop the
thread-local stack; the sink's `span_exit` is invoked only when a frame
was found. Returns the new stack and the optional `(id, duration)` sink
call. -/
def baseTracerExit (stack : List SpanLocal) (span now : Nat) :
    List SpanLocal × Option (Nat × Nat) :=
  match popSpan stack span now with
  | (none, st) => (st, none)
  | (some dur, st) => (st, some (span, dur))

/-- **C5 counterexample.** At an id with no per-span sink state, both
sinks' `span_exit` and `span_values` hit `.unwrap()` on a missing map
entry and panic (`none`) instead of being silent no-ops as the claim
states. -/
theorem sink_missing_state_counterexample :
    profilerSpanExit emptyMap 5 7 = none ∧
    profilerSpanValues emptyMap 5 [1, 2] = none ∧
    loggerSpanExit emptyMap 5 7 = none ∧
    loggerSpanValues emptyMap 5 [1, 2] = none ∧
    (∀ r : (Nat → Option SpanVisitorMsg) × SpanVisitorMsg,
      profilerSpanExit emptyMap 5 7 ≠ some r) := by
  refine ⟨rfl, rfl, rfl, rfl, ?_⟩
  intro r h
  cases h

/-- **C5 (amended).** The subscriber core itself tolerates missing state:
`exit` of a span with no stack frame leaves the stack unchanged and calls
no sink (and `try_close` of an unknown id returns `false`, see C6). But
the sinks are not no-op-safe: for every id with no per-span state, the
`span_exit` and `span_values` callbacks of both the profiler sink and the
log sink unwrap the missing map entry and panic. -/
theorem sink_missing_state_spec (spansP : Nat → Option SpanVisitorMsg)
    (spansL : Nat → Option LoggerSpanData) (stack : List SpanLocal)
    (id dur now : Nat) (values : List Nat)
    (hP : spansP id = none) (hL : spansL id = none)
    (hstack : ∀ w ∈ stack, w.id ≠ id) :
    profilerSpanExit spansP id dur = none ∧
    profilerSpanValues spansP id values = none ∧
    loggerSpanExit spansL id dur = none ∧
    loggerSpanValues spansL id values = none ∧
    baseTracerExit stack id now = (stack, none) := by
  refine ⟨?_, ?_, ?_, ?_, ?_⟩
  · rw [profilerSpanExit, hP]
  · rw [profilerSpanValues, hP]
  · rw [loggerSpanExit, hL]
  · rw [loggerSpanValues, hL]
  · rw [baseTracerExit, popSpan_miss stack id now hstack]

/-- Witness for C5 (amended) at id 5 with empty sink maps and a stack
holding one unrelated frame. -/
theorem sink_missing_state_spec_witness :
    profilerSpanExit emptyMap 5 7 = none ∧
    profilerSpanValues emptyMap 5 [9] = none ∧
    loggerSpanExit emptyMap 5 7 = none ∧
    loggerSpanValues emptyMap 5 [9] = none ∧
    baseTracerExit [{ id := 3, last_time := 2 }] 5 7 =
      ([{ id := 3, last_time := 2 }], none) :=
  sink_missing_state_spec emptyMap emptyMap [{ id := 3, last_time := 2 }]
    5 7 7 [9] rfl rfl (by decide)

/-! ## Worker per-node aggregation (`src/src/profiler/thread/core.rs`,
`src/src/profiler/thread/state.rs`) -/

def OVERFLOW_LIMIT : Nat := 1000000000

/-- `Duration::MAX` in nanoseconds: `u64::MAX` seconds plus `10^9 - 1`
nanoseconds. -/
def DURATION_MAX : Nat := 18446744073709551615 * 1000000000 + 999999999

structure ThreadSpanData where
  run_count : Nat
  instance_count : Nat
  has_overflowed : Bool
  min_time : Nat
  max_time : Nat
  total_time : Nat
deriving Repr, DecidableEq

/-- `SpanData::new` (src/src/profiler/thread/state.rs:49-61): note that
`min_time` starts at `Duration::ZERO` and `max_time` at `Duration::MAX`. -/
def ThreadSpanData.new : ThreadSpanData :=
  { run_count := 0, instance_count := 0, has_overflowed := false,
    min_time := 0, max_time := DURATION_MAX, total_time := 0 }

/-- The aggregation step of `Thread::handle_span_data`
(src/src/profiler/thread/core.rs:138-172) for a present node: bump
`run_count` (with the overflow reset), then update `max_time`/`min_time`
by comparison and accumulate `total_time`. The CSV `runs_file` write is
external file I/O and not modelled. -/
def handleSpanDataUpdate (d : ThreadSpanData) (dur : Nat) : ThreadSpanData :=
  let d1 := { d with run_count := d.run_count + 1 }
  let d2 := if d1.run_count > OVERFLOW_LIMIT then
      { d1 with total_time := 0, run_count := 0, has_overflowed := true }
    else d1
  let d3 := if dur > d2.max_time then { d2 with max_time := dur } else d2
  let d4 := if dur < d3.min_time then { d3 with min_time := dur } else d3
  { d4 with total_time := d4.total_time + dur }

/-- `Thread::handle_span_data` on the node map: absent node ids are
ignored. -/
def handleSpanData (m : Nat → Option ThreadSpanData) (id dur : Nat) :
    Nat → Option ThreadSpanData :=
  match m id with
  | none => m
  | some d => putKey m id (handleSpanDataUpdate d dur)

/-- **C3.** The per-update arithmetic matches the claim: after an update
`min_time = min(old, duration)` and `max_time = max(old, duration)`, so
`min_time ≤ duration ≤ max_time` holds after processing. But the claim's
"after a single run of duration d, min_time = max_time = d" fails on the
code: `SpanData::new` initializes `min_time = Duration::ZERO` and
`max_time = Duration::MAX` (swapped), so after a single run of duration 5
the stored values are still `0` and `Duration::MAX`, not `5`. -/
theorem spanData_minmax_update :
    (∀ (d : ThreadSpanData) (dur : Nat),
      (handleSpanDataUpdate d dur).min_time = min d.min_time dur ∧
      (handleSpanDataUpdate d dur).max_time = max d.max_time dur ∧
      (handleSpanDataUpdate d dur).min_time ≤ dur ∧
      dur ≤ (handleSpanDataUpdate d dur).max_time) ∧
    (handleSpanData (putKey emptyMap 1 ThreadSpanData.new) 1 5) 1 =
      some (handleSpanDataUpdate ThreadSpanData.new 5) ∧
    (handleSpanDataUpdate ThreadSpanData.new 5).min_time = 0 ∧
    (handleSpanDataUpdate ThreadSpanData.new 5).max_time = DURATION_MAX ∧
    ¬((handleSpanDataUpdate ThreadSpanData.new 5).min_time = 5 ∧
      (handleSpanDataUpdate ThreadSpanData.new 5).max_time = 5) := by
  refine ⟨?_, ?_, ?_, ?_, ?_⟩
  · intro d dur
    unfold handleSpanDataUpdate
    by_cases h1 : d.run_count + 1 > OVERFLOW_LIMIT <;>
      by_cases h2 : dur > d.max_time <;>
        by_cases h3 : dur < d.min_time <;>
          simp [h1, h2, h3] <;> omega
  · rfl
  · decide
  · decide
  · decide

/-! ## Span store: aggregation and bounded recording
(`src/src/profiler/thread/store.rs`) -/

/-- The per-node state used by `SpanStore`. The struct declaration for
this revision is not present under src; the fields are reconstructed from
their uses in store.rs. `runs_file` is the recording buffer, modelled as
the list of recorded span-log bodies. -/
structure StoreSpanData where
  row_count : Nat
  runs_file : List (List Nat)
  min_time : Nat
  max_time : Nat
  total_time : Nat
  average_run_count : Nat
  last_display_time : Nat
deriving Repr, DecidableEq

/-- Modelled from the spec: `SpanData::update` (invoked at store.rs:94)
is not present under src; per §4.6 it updates `min_time`/`max_time`,
bumps `average_run_count` with a windowed reset at `max_average_points`,
and accumulates `total_time`. -/
def StoreSpanData.update (d : StoreSpanData) (duration maxAveragePoints : Nat) :
    StoreSpanData :=
  let d1 := { d with min_time := min d.min_time duration,
                     max_time := max d.max_time duration }
  let d2 :=
    if d1.average_run_count + 1 = maxAveragePoints then
      { d1 with average_run_count := 0, total_time := 0 }
    else
      { d1 with average_run_count := d1.average_run_count + 1 }
  { d2 with total_time := d2.total_time + duration }

/-- Modelled from the spec: `get_average` (store.rs:110), the windowed
mean `total_time / average_run_count` (0 when the count is 0). -/
def StoreSpanData.get_average (d : StoreSpanData) : Nat :=
  if d.average_run_count = 0 then 0 else d.total_time / d.average_run_count

/-- A `SpanLog` as seen by the store: target node id, duration, and the
serialized body appended to the recording buffer. -/
structure SpanLogMsg where
  id : Nat
  duration : Nat
  body : List Nat
deriving Repr, DecidableEq

structure SpanUpdateMsg where
  id : Nat
  run_count : Nat
  average_time : Nat
  min_time : Nat
  max_time : Nat
deriving Repr, DecidableEq

structure SpanStore where
  span_data : Nat → Option StoreSpanData
  max_rows : Nat
  global_max_rows : Nat
  max_average_points : Nat
  enable_recording : Bool
  period : Nat

/-- `SpanStore::new` (store.rs:43-65): the requested row cap is clamped by
the global cap and the period by the minimum period. -/
def SpanStore.new (globalMaxRows minPeriod cfgMaxRows cfgPeriod
    cfgMaxAveragePoints : Nat) (cfgEnable : Bool) : SpanStore :=
  { span_data := emptyMap,
    max_rows := if cfgMaxRows > globalMaxRows then globalMaxRows else cfgMaxRows,
    global_max_rows := globalMaxRows,
    max_average_points := cfgMaxAveragePoints,
    enable_recording := cfgEnable,
    period := if cfgPeriod < minPeriod then minPeriod else cfgPeriod }

/-- `SpanStore::start_recording` (store.rs:67-73). -/
def SpanStore.start_recording (s : SpanStore) (maxRows : Nat) : SpanStore :=
  { s with
    max_rows := if maxRows > s.global_max_rows then s.global_max_rows else maxRows,
    enable_recording := true }

/-- `SpanStore::record` (store.rs:91-120): for a known node, update the
aggregates; when recording is enabled and `row_count < max_rows`, bump
`row_count` and append the log's serialized body to `runs_file`; when more
than `period` elapsed since the last push, emit a `SpanUpdate` and reset
the push clock. Unknown node ids are ignored. -/
def SpanStore.record (s : SpanStore) (log : SpanLogMsg) (now : Nat) :
    SpanStore × Option SpanUpdateMsg :=
  match s.span_data log.id with
  | none => (s, none)
  | some data =>
      let data1 := data.update log.duration s.max_average_points
      let data2 :=
        if s.enable_recording ∧ data1.row_count < s.max_rows then
          { data1 with row_count := data1.row_count + 1,
                       runs_file := data1.runs_file ++ [log.body] }
        else data1
      if now - data2.last_display_time > s.period then
        let data3 := { data2 with last_display_time := now }
        ({ s with span_data := putKey s.span_data log.id data3 },
         some { id := log.id, run_count := data3.row_count,
                average_time := data3.get_average,
                min_time := data3.min_time, max_time := data3.max_time })
      else
        ({ s with span_data := putKey s.span_data log.id data2 }, none)

/-- Worker processing of a sequence of span logs through the store. -/
def SpanStore.processLogs (s : SpanStore) (logs : List (SpanLogMsg × Nat)) :
    SpanStore :=
  logs.foldl (fun acc l => (acc.record l.1 l.2).1) s

/-- Row-cap invariant: every node's recording buffer holds exactly
`row_count` bodies and `row_count` never exceeds `max_rows`. -/
def StoreRowInv (s : SpanStore) : Prop :=
  ∀ n d, s.span_data n = some d →
    d.runs_file.length = d.row_count ∧ d.row_count ≤ s.max_rows

theorem spanStore_record_inv (s : SpanStore) (log : SpanLogMsg) (now : Nat)
    (hinv : StoreRowInv s) :
    StoreRowInv (s.record log now).1 ∧ (s.record log now).1.max_rows = s.max_rows := by
  rcases hl : s.span_data log.id with _ | data
  · rw [SpanStore.record, hl]
    exact ⟨hinv, rfl⟩
  · rw [SpanStore.record, hl]
    dsimp only
    obtain ⟨hlen, hcap⟩ := hinv _ _ hl
    have h1row : (data.update log.duration s.max_average_points).row_count =
        data.row_count := by
      unfold StoreSpanData.update
      dsimp only
      split <;> rfl
    have h1file : (data.update log.duration s.max_average_points).runs_file =
        data.runs_file := by
      unfold StoreSpanData.update
      dsimp only
      split <;> rfl
    set data1 := data.update log.duration s.max_average_points with hd1
    by_cases hrec : s.enable_recording ∧ data1.row_count < s.max_rows
    · rw [if_pos hrec]
      by_cases hper : now - data1.last_display_time > s.period
      · rw [if_pos hper]
        refine ⟨?_, rfl⟩
        intro n d hn
        dsimp only at hn ⊢
        by_cases hne : n = log.id
        · subst hne
          rw [putKey_same] at hn
          cases hn
          constructor
          · simp [h1file, h1row, hlen]
          · simp only [h1row]
            omega
        · rw [putKey_other _ _ _ _ hne] at hn
          exact hinv n d hn
      · rw [if_neg hper]
        refine ⟨?_, rfl⟩
        intro n d hn
        dsimp only at hn ⊢
        by_cases hne : n = log.id
        · subst hne
          rw [putKey_same] at hn
          cases hn
          constructor
          · simp [h1file, h1row, hlen]
          · simp only [h1row]
            omega
        · rw [putKey_other _ _ _ _ hne] at hn
          exact hinv n d hn
    · rw [if_neg hrec]
      by_cases hper : now - data1.last_display_time > s.period
      · rw [if_pos hper]
        refine ⟨?_, rfl⟩
        intro n d hn
        dsimp only at hn ⊢
        by_cases hne : n = log.id
        · subst hne
          rw [putKey_same] at hn
          cases hn
          exact ⟨by simp [h1file, h1row, hlen], by simp only [h1row]; omega⟩
        · rw [putKey_other _ _ _ _ hne] at hn
          exact hinv n d hn
      · rw [if_neg hper]
        refine ⟨?_, rfl⟩
        intro n d hn
        dsimp only at hn ⊢
        by_cases hne : n = log.id
        · subst hne
          rw [putKey_same] at hn
          cases hn
          exact ⟨by simp [h1file, h1row, hlen], by simp only [h1row]; omega⟩
        · rw [putKey_other _ _ _ _ hne] at hn
          exact hinv n d hn

theorem spanStore_processLogs_inv (s : SpanStore)
    (logs : List (SpanLogMsg × Nat)) (hinv : StoreRowInv s) :
    StoreRowInv (s.processLogs logs) ∧
    (s.processLogs logs).max_rows = s.max_rows := by
  induction logs generalizing s with
  | nil => exact ⟨hinv, rfl⟩
  | cons l ls ih =>
      obtain ⟨h1, h2⟩ := spanStore_record_inv s l.1 l.2 hinv
      obtain ⟨h3, h4⟩ := ih _ h1
      rw [SpanStore.processLogs, List.foldl_cons]
      exact ⟨h3, by rw [← SpanStore.processLogs, h4, h2]⟩

/-- **C8.** `start_recording(requested)` sets `max_rows` to
`min(requested, global_max_rows)` and enables recording; and for every
sequence of `SpanLog`s processed from a store satisfying the row-cap
invariant (as at the start of a recording window, where every buffer is
empty and every `row_count` is 0), each node's `row_count` is bumped only
while `row_count < max_rows`, so no node's recording buffer ever holds
more than `max_rows` bodies. -/
theorem spanStore_recording_cap (s : SpanStore) (requested : Nat)
    (logs : List (SpanLogMsg × Nat)) (hinv : StoreRowInv s) :
    ((s.start_recording requested).max_rows = min requested s.global_max_rows ∧
     (s.start_recording requested).enable_recording = true) ∧
    StoreRowInv (s.processLogs logs) ∧
    ∀ n d, (s.processLogs logs).span_data n = some d →
      d.runs_file.length = d.row_count ∧ d.row_count ≤ s.max_rows := by
  obtain ⟨h1, h2⟩ := spanStore_processLogs_inv s logs hinv
  refine ⟨⟨?_, rfl⟩, h1, ?_⟩
  · rw [SpanStore.start_recording]
    dsimp only
    split <;> omega
  · intro n d hn
    have := h1 n d hn
    rw [h2] at this
    exact this

/-- Witness for C8: a store with one node (empty buffer, cap 2,
recording enabled) processing three span logs for that node. -/
theorem spanStore_recording_cap_witness :
    (((SpanStore.mk (putKey emptyMap 1 (StoreSpanData.mk 0 [] 0 0 0 0 0))
        2 10 4 true 0).start_recording 7).max_rows = min 7 10 ∧
     ((SpanStore.mk (putKey emptyMap 1 (StoreSpanData.mk 0 [] 0 0 0 0 0))
        2 10 4 true 0).start_recording 7).enable_recording = true) ∧
    StoreRowInv ((SpanStore.mk (putKey emptyMap 1 (StoreSpanData.mk 0 [] 0 0 0 0 0))
        2 10 4 true 0).processLogs
      [(SpanLogMsg.mk 1 5 [7], 1), (SpanLogMsg.mk 1 6 [8], 2),
       (SpanLogMsg.mk 1 4 [9], 3)]) ∧
    ∀ n d, ((SpanStore.mk (putKey emptyMap 1 (StoreSpanData.mk 0 [] 0 0 0 0 0))
        2 10 4 true 0).processLogs
      [(SpanLogMsg.mk 1 5 [7], 1), (SpanLogMsg.mk 1 6 [8], 2),
       (SpanLogMsg.mk 1 4 [9], 3)]).span_data n = some d →
      d.runs_file.length = d.row_count ∧ d.row_count ≤ 2 :=
  spanStore_recording_cap
    (SpanStore.mk (putKey emptyMap 1 (StoreSpanData.mk 0 [] 0 0 0 0 0)) 2 10 4 true 0)
    7 [(SpanLogMsg.mk 1 5 [7], 1), (SpanLogMsg.mk 1 6 [8], 2),
       (SpanLogMsg.mk 1 4 [9], 3)]
    (by
      intro n d hn
      dsimp only at hn ⊢
      by_cases hne : n = 1
      · subst hne
        rw [putKey_same] at hn
        cases hn
        exact ⟨rfl, by decide⟩
      · rw [putKey_other _ _ _ _ hne] at hn
        cases hn)

/-! ## Fixed-capacity log record buffers (`src/src/profiler/log_msg.rs`) -/

/-- `CTRL_LOG_SPAN` (log_msg.rs:36): `size_of::<NonZeroU32>() = 4` plus
`size_of::<u16>() = 2` plus 1. -/
def CTRL_LOG_SPAN : Nat := 4 + 2 + 1

/-- `CTRL_LOG_EVENT` (log_msg.rs:37-40): `size_of::<i64>() = 8` plus
`size_of::<Option<NonZeroU32>>() = 4` plus `size_of::<u16>() = 2`
plus 2. -/
def CTRL_LOG_EVENT : Nat := 8 + 4 + 2 + 2

/-- The `SpanLog` inline buffer capacity `512 - CTRL_LOG_SPAN`
(log_msg.rs:103). -/
def SPAN_LOG_CAP : Nat := 512 - CTRL_LOG_SPAN

/-- The `EventLog` inline buffer capacity `512 - CTRL_LOG_EVENT`
(log_msg.rs:153). -/
def EVENT_LOG_CAP : Nat := 512 - CTRL_LOG_EVENT

/-- A fixed-capacity log record buffer: `cap` is the compile-time storage
size and `data` the written prefix (the first `msg_len` bytes of the
`[MaybeUninit<u8>; N]` storage; the remainder is uninitialized and
unobservable). -/
structure LogBuf where
  cap : Nat
  data : List Nat
deriving Repr, DecidableEq

/-- The macro-generated `write_multiple` (log_msg.rs:84-95): copy
`min(buf.len(), capacity - msg_len)` bytes from the front of `buf` and
advance `msg_len` by that amount; the count of written bytes is
returned. -/
def LogBuf.write_multiple (b : LogBuf) (buf : List Nat) : LogBuf × Nat :=
  let len := min buf.length (b.cap - b.data.length)
  ({ b with data := b.data ++ buf.take len }, len)

/-- The macro-generated `write_single` (log_msg.rs:73-82): write one byte
when there is room, otherwise drop it. -/
def LogBuf.write_single (b : LogBuf) (val : Nat) : LogBuf :=
  if 0 < min 1 (b.cap - b.data.length) then { b with data := b.data ++ [val] }
  else b

/-- The macro-generated `as_bytes` (log_msg.rs:53-55): exactly the first
`msg_len` bytes of the storage. -/
def LogBuf.as_bytes (b : LogBuf) : List Nat := b.data

/-- **C9.** For every log buffer with recorded length `L ≤ C` and every
write of `n` bytes: exactly `min(n, C - L)` bytes are appended (a prefix
of the input), the recorded length grows by that amount and never exceeds
the capacity, and `as_bytes` returns exactly the recorded bytes. The
`SpanLog` and `EventLog` capacities are `512 - 7 = 505` and
`512 - 16 = 496` bytes. -/
theorem logBuf_write_truncation (b : LogBuf) (buf : List Nat)
    (hb : b.data.length ≤ b.cap) :
    (b.write_multiple buf).2 = min buf.length (b.cap - b.data.length) ∧
    (b.write_multiple buf).1.data =
      b.data ++ buf.take (min buf.length (b.cap - b.data.length)) ∧
    (b.write_multiple buf).1.data.length =
      b.data.length + min buf.length (b.cap - b.data.length) ∧
    (b.write_multiple buf).1.data.length ≤ b.cap ∧
    (b.write_multiple buf).1.cap = b.cap ∧
    (b.write_multiple buf).1.as_bytes = (b.write_multiple buf).1.data ∧
    SPAN_LOG_CAP = 505 ∧ EVENT_LOG_CAP = 496 := by
  refine ⟨rfl, rfl, ?_, ?_, rfl, rfl, by decide, by decide⟩
  · unfold LogBuf.write_multiple
    dsimp only
    rw [List.length_append, List.length_take]
    omega
  · unfold LogBuf.write_multiple
    dsimp only
    rw [List.length_append, List.length_take]
    omega

/-- Witness for C9: a buffer of capacity 5 holding 3 bytes accepts only 2
of 4 written bytes. -/
theorem logBuf_write_truncation_witness :
    ((LogBuf.mk 5 [1, 2, 3]).write_multiple [9, 9, 9, 9]).2 =
      min 4 (5 - 3) ∧
    ((LogBuf.mk 5 [1, 2, 3]).write_multiple [9, 9, 9, 9]).1.data =
      [1, 2, 3] ++ [9, 9, 9, 9].take (min 4 (5 - 3)) ∧
    ((LogBuf.mk 5 [1, 2, 3]).write_multiple [9, 9, 9, 9]).1.data.length =
      3 + min 4 (5 - 3) ∧
    ((LogBuf.mk 5 [1, 2, 3]).write_multiple [9, 9, 9, 9]).1.data.length ≤ 5 ∧
    ((LogBuf.mk 5 [1, 2, 3]).write_multiple [9, 9, 9, 9]).1.cap = 5 ∧
    ((LogBuf.mk 5 [1, 2, 3]).write_multiple [9, 9, 9, 9]).1.as_bytes =
      ((LogBuf.mk 5 [1, 2, 3]).write_multiple [9, 9, 9, 9]).1.data ∧
    SPAN_LOG_CAP = 505 ∧ EVENT_LOG_CAP = 496 :=
  logBuf_write_truncation (LogBuf.mk 5 [1, 2, 3]) [9, 9, 9, 9] (by decide)

/-! ## TLV field encoding (`src/src/profiler/network_types/log.rs`)

`FieldType` tag bytes (log.rs:5-18): I8 = 1, I16 = 2, I32 = 3, I64 = 4,
U8 = 5, U16 = 6, U32 = 7, U64 = 8, F64 = 9, STR = 10, BOOL = 11. -/

/-- `impl FieldValue for u64` (log.rs:31-48): the integer width tag is
selected by magnitude and the value bytes follow little-endian (the first
branch writes the single byte directly). -/
def writeFieldU64 (v : Nat) : List Nat :=
  if v < 256 then 5 :: leBytes v 1
  else if v < 65536 then 6 :: leBytes v 2
  else if v < 4294967296 then 7 :: leBytes v 4
  else 8 :: leBytes v 8

/-- Two's-complement truncation to `k` bytes, little-endian: the bytes
produced by a Rust `as iNN` cast followed by `write_to_le`. -/
def intLeBytes (v : Int) (k : Nat) : List Nat :=
  leBytes ((v % ((256:Int) ^ k)).toNat) k

/-- `impl FieldValue for i64` (log.rs:50-67): each branch guard is an
UPPER bound only (`v < 128`, `v < 32768`, `v < i32::MAX + 1`), so every
negative value takes the first (I8) branch. -/
def writeFieldI64 (v : Int) : List Nat :=
  if v < 128 then 1 :: intLeBytes v 1
  else if v < 32768 then 2 :: intLeBytes v 2
  else if v < 2147483648 then 3 :: intLeBytes v 4
  else 4 :: intLeBytes v 8

/-- Modelled from the spec: the decoder for one integer TLV value (the
client side of the protocol, not part of this repository). The tag byte
selects width and signedness; value bytes are little-endian, sign-extended
for the signed tags. -/
def signedOfBytes (bytes : List Nat) : Int :=
  if leVal bytes < 256 ^ bytes.length / 2 then (leVal bytes : Int)
  else (leVal bytes : Int) - (256 ^ bytes.length : Nat)

/-- Modelled from the spec: tag dispatch of the integer TLV decoder. -/
def decodeIntField : List Nat → Option Int
  | [] => none
  | t :: rest =>
    if t = 1 ∧ rest.length = 1 then some (signedOfBytes rest)
    else if t = 2 ∧ rest.length = 2 then some (signedOfBytes rest)
    else if t = 3 ∧ rest.length = 4 then some (signedOfBytes rest)
    else if t = 4 ∧ rest.length = 8 then some (signedOfBytes rest)
    else if t = 5 ∧ rest.length = 1 then some ((leVal rest : Nat) : Int)
    else if t = 6 ∧ rest.length = 2 then some ((leVal rest : Nat) : Int)
    else if t = 7 ∧ rest.length = 4 then some ((leVal rest : Nat) : Int)
    else if t = 8 ∧ rest.length = 8 then some ((leVal rest : Nat) : Int)
    else none

/-- **C4.** The unsigned encoder is magnitude-correct and round-trips for
every `u64`, and the signed encoder round-trips for every nonnegative
`i64`; but because the `i64` branch guards check only upper bounds, every
negative value is tagged I8 and truncated to one byte: `-1000` encodes as
`[I8, 0x18]`, which decodes to `24`, not `-1000`. -/
theorem fieldValue_int_roundtrip :
    (∀ v : Nat, v < 18446744073709551616 →
      decodeIntField (writeFieldU64 v) = some ((v : Nat) : Int)) ∧
    (∀ v : Int, 0 ≤ v → v < 9223372036854775808 →
      decodeIntField (writeFieldI64 v) = some v) ∧
    writeFieldI64 (-1000) = [1, 24] ∧
    decodeIntField [1, 24] = some 24 ∧
    decodeIntField (writeFieldI64 (-1000)) ≠ some (-1000) := by
  have hu : ∀ v : Nat, v < 18446744073709551616 →
      decodeIntField (writeFieldU64 v) = some ((v : Nat) : Int) := by
    intro v hv
    unfold writeFieldU64
    by_cases h1 : v < 256
    · rw [if_pos h1]
      have := leVal_leBytes 1 v (by norm_num; omega)
      simp [decodeIntField, leBytes_length, this]
    · rw [if_neg h1]
      by_cases h2 : v < 65536
      · rw [if_pos h2]
        have := leVal_leBytes 2 v (by norm_num; omega)
        simp [decodeIntField, leBytes_length, this]
      · rw [if_neg h2]
        by_cases h3 : v < 4294967296
        · rw [if_pos h3]
          have := leVal_leBytes 4 v (by norm_num; omega)
          simp [decodeIntField, leBytes_length, this]
        · rw [if_neg h3]
          have := leVal_leBytes 8 v (by norm_num; omega)
          simp [decodeIntField, leBytes_length, this]
  refine ⟨hu, ?_, by decide, by decide, by decide⟩
  intro v h0 hv
  unfold writeFieldI64 intLeBytes
  by_cases h1 : v < 128
  · rw [if_pos h1]
    have hm : v % (256:Int) ^ 1 = v := by norm_num; omega
    have ht : (v % (256:Int) ^ 1).toNat = v.toNat := by rw [hm]
    have hlt : v.toNat < 256 := by omega
    have hle := leVal_leBytes 1 v.toNat (by norm_num; omega)
    rw [ht]
    simp only [decodeIntField, leBytes_length, signedOfBytes, hle]
    norm_num
    omega
  · rw [if_neg h1]
    by_cases h2 : v < 32768
    · rw [if_pos h2]
      have hm : v % (256:Int) ^ 2 = v := by norm_num; omega
      have ht : (v % (256:Int) ^ 2).toNat = v.toNat := by rw [hm]
      have hle := leVal_leBytes 2 v.toNat (by norm_num; omega)
      rw [ht]
      simp only [decodeIntField, leBytes_length, signedOfBytes, hle]
      norm_num
      omega
    · rw [if_neg h2]
      by_cases h3 : v < 2147483648
      · rw [if_pos h3]
        have hm : v % (256:Int) ^ 4 = v := by norm_num; omega
        have ht : (v % (256:Int) ^ 4).toNat = v.toNat := by rw [hm]
        have hle := leVal_leBytes 4 v.toNat (by norm_num; omega)
        rw [ht]
        simp only [decodeIntField, leBytes_length, signedOfBytes, hle]
        norm_num
        omega
      · rw [if_neg h3]
        have hm : v % (256:Int) ^ 8 = v := by norm_num; omega
        have ht : (v % (256:Int) ^ 8).toNat = v.toNat := by rw [hm]
        have hle := leVal_leBytes 8 v.toNat (by norm_num; omega)
        rw [ht]
        simp only [decodeIntField, leBytes_length, signedOfBytes, hle]
        norm_num
        omega

/-- Witness for C4 at `u64` value 300 and `i64` value 70000. -/
theorem fieldValue_int_roundtrip_witness :
    decodeIntField (writeFieldU64 300) = some 300 ∧
    decodeIntField (writeFieldI64 70000) = some 70000 :=
  ⟨fieldValue_int_roundtrip.1 300 (by norm_num),
   fieldValue_int_roundtrip.2.1 70000 (by norm_num) (by norm_num)⟩

end DebugTracing




